import Mathlib

/-!
Shallow embedding of the payment-probe normalization core (card model and
validators, response classifiers, token/field extraction helpers) of the
repository, together with theorems settling the frozen claims about it.

Modelling conventions:
- Rust `&str` values are embedded as `List Char`; byte indices of `str::find`
  become character indices (all relevant literals are ASCII, where the two
  coincide).
- Rust `str::to_lowercase` / `char::is_whitespace` are modelled on their
  ASCII fragments (`Char.toLower`, `isWs`), which covers every literal the
  classifiers compare against.
- External crates (serde_json, the base64 decoder, the scraper HTML engine)
  are collaborators, not repository code: their outcome is passed to the
  embedded function as an explicit parameter, exactly where the Rust code
  consumes their result.
-/

/-- Convert a string literal to the character-list representation used
throughout this development. -/
def cl (s : String) : List Char := s.data

/-- Model of Rust `char::is_ascii_digit`: code point between 48 and 57. -/
def isDigitC (c : Char) : Bool := 48 ≤ c.toNat && c.toNat ≤ 57

/-- ASCII fragment of Rust `char::is_whitespace`: space or the control
characters 9 to 13 (tab, newline, vertical tab, form feed, carriage return). -/
def isWs (c : Char) : Bool := c.toNat == 32 || (9 ≤ c.toNat && c.toNat ≤ 13)

/-- Model of Rust `str::to_lowercase` on ASCII text: lower each character. -/
def lowerL (s : List Char) : List Char := s.map Char.toLower

/-- Model of Rust `str::find(pat)`: index of the first occurrence of
`needle` in `hay`, if any. -/
def findSub (needle : List Char) (hay : List Char) : Option Nat :=
  if needle.isPrefixOf hay then some 0
  else
    match hay with
    | [] => none
    | _ :: t => (findSub needle t).map (· + 1)

/-- Model of Rust `str::contains(pat)`. -/
def isSub (needle hay : List Char) : Bool := (findSub needle hay).isSome

/-- Value of a decimal digit string, as folded up by Rust integer parsing. -/
def natOfDigits (ds : List Char) : Nat := ds.foldl (fun a c => a * 10 + (c.toNat - 48)) 0

/-- Model of Rust `str::parse::<u32>()`: an optional leading plus sign, then a
nonempty run of digits whose value fits in 32 bits. -/
def parseU32 (l : List Char) : Option Nat :=
  let ds := match l with
    | '+' :: r => r
    | _ => l
  if ds.isEmpty || !(ds.all isDigitC) then none
  else if 4294967295 < natOfDigits ds then none
  else some (natOfDigits ds)

/-- Model of Rust `str::parse::<u8>()`: an optional leading plus sign, then a
nonempty run of digits whose value fits in 8 bits. -/
def parseU8 (l : List Char) : Option Nat :=
  let ds := match l with
    | '+' :: r => r
    | _ => l
  if ds.isEmpty || !(ds.all isDigitC) then none
  else if 255 < natOfDigits ds then none
  else some (natOfDigits ds)

/-- Embedding of `PaymentStatus` (src/models/response.rs). -/
inductive PaymentStatus where
  | Charged
  | CcnLive
  | ThreeDsRequired
  | InsufficientFunds
  | Declined
  | Error
  | Unknown
deriving DecidableEq, Repr

/-- Embedding of `PaymentStatus::should_notify` (src/models/response.rs):
a match on the four notifying constructors. -/
def should_notify (s : PaymentStatus) : Bool :=
  match s with
  | .Charged => true
  | .CcnLive => true
  | .ThreeDsRequired => true
  | .InsufficientFunds => true
  | _ => false

/-- Embedding of `PaymentResponse` (src/models/response.rs). The
`execution_time : f64` field is a floating-point number never read by the
classifiers; it is omitted from the embedding. -/
structure PaymentResponse where
  status : PaymentStatus
  message : List Char
  redirect_url : Option (List Char)
  raw_response : Option (List Char)
deriving DecidableEq, Repr

/-- Embedding of `PaymentResponse::new`. -/
def PaymentResponse.new (status : PaymentStatus) (message : List Char) : PaymentResponse :=
  ⟨status, message, none, none⟩

/-- Embedding of `PaymentResponse::charged`. -/
def PaymentResponse.charged (m : List Char) : PaymentResponse := .new .Charged m

/-- Embedding of `PaymentResponse::ccn_live`. -/
def PaymentResponse.ccn_live (m : List Char) : PaymentResponse := .new .CcnLive m

/-- Embedding of `PaymentResponse::three_ds`. -/
def PaymentResponse.three_ds : PaymentResponse :=
  .new .ThreeDsRequired (cl "3D Secure authentication required")

/-- Embedding of `PaymentResponse::insufficient_funds`. -/
def PaymentResponse.insufficient_funds : PaymentResponse :=
  .new .InsufficientFunds (cl "Insufficient funds")

/-- Embedding of `PaymentResponse::declined`. -/
def PaymentResponse.declined (m : List Char) : PaymentResponse := .new .Declined m

/-- Embedding of `PaymentResponse.error`. -/
def PaymentResponse.error (m : List Char) : PaymentResponse := .new .Error m

/-- Embedding of `PaymentResponse::unknown`. -/
def PaymentResponse.unknown (m : List Char) : PaymentResponse := .new .Unknown m

/-- Embedding of `detect_card_brand` (src/utils/validators.rs). The source
parses `first_two` (never `first_four`) against both the 51 to 55 range and
the 2221 to 2720 range. -/
def detect_card_brand (bin : List Char) : List Char :=
  match bin with
  | [] => cl "Unknown"
  | first_digit :: _ =>
    let first_two := bin.take 2
    let first_four := bin.take 4
    if first_digit = '4' then cl "Visa"
    else if (match parseU32 first_two with
             | some num => (51 ≤ num && num ≤ 55) || (2221 ≤ num && num ≤ 2720)
             | none => false) then cl "Mastercard"
    else if first_two = cl "34" || first_two = cl "37" then cl "American Express"
    else if first_two = cl "65" || first_four = cl "6011" then cl "Discover"
    else if (match parseU32 first_four with
             | some num => 3528 ≤ num && num ≤ 3589
             | none => false) then cl "JCB"
    else if first_two = cl "36" || first_two = cl "38" || first_two = cl "30" then cl "Diners Club"
    else if first_two = cl "62" then cl "UnionPay"
    else cl "Unknown"

/-- Embedding of the doubled-digit step of the Luhn pass: double, and subtract
9 when the doubled value exceeds 9. -/
def luhnDouble (d : Nat) : Nat :=
  let v := d * 2
  if v > 9 then v - 9 else v

/-- Embedding of the right-to-left accumulation loop shared by `validate_luhn`
and `calculate_luhn_digit`: the list is the digit sequence already reversed,
and the flag is the current value of the Rust `double` variable. -/
def luhnSum : List Nat → Bool → Nat
  | [], _ => 0
  | d :: rest, dbl => (if dbl then luhnDouble d else d) + luhnSum rest (!dbl)

/-- Digit extraction shared by the Luhn functions: keep ASCII digits and take
their values (Rust `filter(is_ascii_digit).filter_map(to_digit(10))`). -/
def digitsOf (s : List Char) : List Nat := (s.filter isDigitC).map (fun c => c.toNat - 48)

/-- Embedding of `validate_luhn` (src/utils/validators.rs): digits are
processed right to left with doubling starting false; empty digit sequences
are invalid. -/
def validate_luhn (s : List Char) : Bool :=
  let digits := digitsOf s
  if digits.isEmpty then false
  else luhnSum digits.reverse false % 10 == 0

/-- Embedding of `calculate_luhn_digit` (src/utils/validators.rs): same pass
with doubling starting true, check digit `(sum * 9) % 10`; `none` on an empty
digit sequence. -/
def calculate_luhn_digit (s : List Char) : Option Nat :=
  let digits := digitsOf s
  if digits.isEmpty then none
  else some (luhnSum digits.reverse true * 9 % 10)

/-- JSON values as produced by the external serde_json crate. Numbers are
modelled as integers; no claim inspects a numeric field. -/
inductive Json where
  | null
  | bool (b : Bool)
  | num (n : Int)
  | str (s : List Char)
  | arr (items : List Json)
  | obj (fields : List (List Char × Json))

/-- Model of serde_json `Value::get(key)`: `none` unless the value is an
object carrying the key. -/
def Json.get (j : Json) (k : List Char) : Option Json :=
  match j with
  | .obj fields => (fields.find? (fun p => p.1 == k)).map (fun p => p.2)
  | _ => none

/-- Model of serde_json square-bracket indexing `value[key]`: like `get`, but
yielding `Null` on a missing key or a non-object. -/
def Json.index (j : Json) (k : List Char) : Json := (j.get k).getD .null

/-- Model of serde_json `Value::as_str`. -/
def Json.asStr : Json → Option (List Char)
  | .str s => some s
  | _ => none

/-- Drop ASCII whitespace from both ends: model of Rust `str::trim`. -/
def trimL (l : List Char) : List Char :=
  ((l.dropWhile isWs).reverse.dropWhile isWs).reverse

/-- Embedding of `ResponseParser::extract_between` (src/services/response_parser.rs):
the trimmed text between the first occurrence of `start` and the next
occurrence of `stop` after it. -/
def extract_between (text start stop : List Char) : Option (List Char) :=
  match findSub start text with
  | none => none
  | some i =>
    let s := i + start.length
    let rest := text.drop s
    match findSub stop rest with
    | none => none
    | some j => some (trimL (rest.take j))

/-- Embedding of `ResponseParser::categorize_stripe_error`
(src/services/response_parser.rs): the ordered first-match-wins cascade over
the lowercased message and the (already lowercased) code fields. -/
def categorize_stripe_error (message code decline_code : List Char) : PaymentResponse :=
  let msg_lower := lowerL message
  if isSub (cl "security code is incorrect") msg_lower
      || isSub (cl "incorrect_cvc") msg_lower
      || code == cl "incorrect_cvc" then
    PaymentResponse.ccn_live (cl "Your card\x27s security code is incorrect.")
  else if isSub (cl "postal code") msg_lower || isSub (cl "zip code") msg_lower then
    PaymentResponse.ccn_live (cl "Your postal code is incorrect.")
  else if isSub (cl "insufficient funds") msg_lower
      || decline_code == cl "insufficient_funds"
      || isSub (cl "insufficient_funds") msg_lower then
    PaymentResponse.insufficient_funds
  else if isSub (cl "authentication") msg_lower
      || isSub (cl "3d secure") msg_lower
      || isSub (cl "requires_action") msg_lower
      || code == cl "payment_intent_authentication_failure" then
    PaymentResponse.three_ds
  else if isSub (cl "expired") msg_lower || code == cl "expired_card" then
    PaymentResponse.declined (cl "Your card has expired.")
  else if isSub (cl "declined") msg_lower
      || isSub (cl "card was declined") msg_lower
      || code == cl "card_declined" then
    PaymentResponse.declined (cl "Card declined: " ++ message)
  else
    PaymentResponse.error message

/-- Embedding of `ResponseParser::parse_stripe_error`
(src/services/response_parser.rs). The Rust function first runs
`serde_json::from_str` (an external crate) over the raw response text; the
`parsed` parameter is the outcome of that call (`none` when the text is not
JSON). On a parsed object carrying an `error` field, the message, code and
decline_code fields are extracted with their Rust defaults and classified;
anything else degrades to the fixed diagnostic. -/
def parse_stripe_error (parsed : Option Json) : PaymentResponse :=
  match parsed with
  | some json =>
    match json.get (cl "error") with
    | some error =>
      let message := ((error.index (cl "message")).asStr).getD (cl "Unknown error")
      let code := lowerL (((error.index (cl "code")).asStr).getD [])
      let decline_code := lowerL (((error.index (cl "decline_code")).asStr).getD [])
      categorize_stripe_error message code decline_code
    | none => PaymentResponse.error (cl "Failed to parse Stripe error response")
  | none => PaymentResponse.error (cl "Failed to parse Stripe error response")

/-- Embedding of `ResponseParser::parse_woocommerce_message`
(src/services/response_parser.rs): the reduced cascade run over the extracted
messages text. -/
def parse_woocommerce_message (message : List Char) : PaymentResponse :=
  let msg_lower := lowerL message
  if isSub (cl "security code is incorrect") msg_lower then
    PaymentResponse.ccn_live (cl "Security code is incorrect")
  else if isSub (cl "insufficient funds") msg_lower then
    PaymentResponse.insufficient_funds
  else if isSub (cl "expired") msg_lower then
    PaymentResponse.declined (cl "Card has expired")
  else if isSub (cl "declined") msg_lower then
    PaymentResponse.declined message
  else
    PaymentResponse.error message

/-- Embedding of `ResponseParser::extract_woocommerce_error`
(src/services/response_parser.rs). The Rust function walks a fixed list of
selectors through the external scraper crate and takes the first element
whose collected text is non-empty after trimming; `scraped` is that text
(`none` when no selector produced one). -/
def extract_woocommerce_error (scraped : Option (List Char)) : PaymentResponse :=
  match scraped with
  | some text => parse_woocommerce_message text
  | none => PaymentResponse.error (cl "Payment failed - unable to extract error details")

/-- Embedding of the HTML-heuristics tail of
`ResponseParser::parse_woocommerce_response`, reached when the payload is not
JSON or the JSON carries neither a success result nor a messages string. -/
def woocommerce_html_branch (response_text : List Char) (scraped : Option (List Char)) :
    PaymentResponse :=
  let html_lower := lowerL response_text
  if isSub (cl "order received") html_lower || isSub (cl "thank you") html_lower then
    PaymentResponse.charged (cl "Order completed successfully")
  else if isSub (cl "payment failed") html_lower || isSub (cl "error") html_lower then
    extract_woocommerce_error scraped
  else
    PaymentResponse.error (cl "Unable to parse WooCommerce response")

/-- Embedding of `ResponseParser::parse_woocommerce_response`
(src/services/response_parser.rs). `parsed` is the outcome of the external
`serde_json::from_str` over `response_text`, and `scraped` feeds the external
selector scan used by the error-extraction branch. -/
def parse_woocommerce_response (parsed : Option Json) (response_text : List Char)
    (scraped : Option (List Char)) : PaymentResponse :=
  match parsed with
  | some json =>
    if (json.index (cl "result")).asStr == some (cl "success") then
      PaymentResponse.charged (cl "Payment successful")
    else
      match (json.index (cl "messages")).asStr with
      | some messages => parse_woocommerce_message messages
      | none => woocommerce_html_branch response_text scraped
  | none => woocommerce_html_branch response_text scraped

/-- Embedding of `ResponseParser::parse_braintree_response`
(src/services/response_parser.rs): success substrings first, then the
delimited Reason span classified by the reduced cascade, else the fixed
diagnostic. This parser is pure string processing, so no parameter is needed
for external crates. -/
def parse_braintree_response (response_text : List Char) : PaymentResponse :=
  let html_lower := lowerL response_text
  if isSub (cl "payment method successfully added") html_lower
      || isSub (cl "successfully added") html_lower then
    PaymentResponse.charged (cl "Payment method added successfully")
  else
    match extract_between response_text (cl "Reason: ") (cl "\t\t</li>") with
    | some reason =>
      let reason_lower := lowerL reason
      if isSub (cl "declined cvv") reason_lower || isSub (cl "cvv") reason_lower then
        PaymentResponse.ccn_live (cl "CVV declined: " ++ reason)
      else if isSub (cl "insufficient funds") reason_lower then
        PaymentResponse.insufficient_funds
      else if isSub (cl "postal code") reason_lower || isSub (cl "address") reason_lower then
        PaymentResponse.ccn_live (cl "AVS mismatch: " ++ reason)
      else
        PaymentResponse.declined reason
    | none => PaymentResponse.error (cl "Unable to parse Braintree response")

/-- Model of Rust `str::split(sep)`: the list of separated pieces; an input
with no separator yields one piece, and trailing separators yield empty
pieces, matching the Rust iterator. -/
def splitSep (sep : Char) : List Char → List (List Char)
  | [] => [[]]
  | c :: rest =>
    if c = sep then [] :: splitSep sep rest
    else
      match splitSep sep rest with
      | [] => [[c]]
      | h :: t => (c :: h) :: t

/-- Embedding of `CardError` (src/models/card.rs). -/
inductive CardError where
  | InvalidFormat (msg : List Char)
  | InvalidNumber
  | InvalidMonth
  | InvalidYear
  | InvalidCvv
deriving DecidableEq, Repr

/-- Embedding of `Card` (src/models/card.rs). -/
structure Card where
  number : List Char
  month : List Char
  year : List Char
  cvv : List Char
deriving DecidableEq, Repr

/-- ASCII character of a digit value. -/
def digitCh (n : Nat) : Char := Char.ofNat (48 + n)

/-- Model of Rust `format!("{:02}", n)` for the values below 100 produced by
month normalization (the month is between 1 and 12 when formatted). -/
def fmt2 (n : Nat) : List Char :=
  if n < 10 then ['0', digitCh n] else [digitCh (n / 10), digitCh (n % 10)]

/-- Tail of `Card::from_string` shared by both year branches: the CVV checks
followed by construction of the card value. -/
def card_finish (number month year cvv : List Char) : Except CardError Card :=
  if !(cvv.all isDigitC) then .error .InvalidCvv
  else if cvv.length < 3 ∨ 4 < cvv.length then .error .InvalidCvv
  else .ok ⟨number, month, year, cvv⟩

/-- Embedding of `Card::from_string` (src/models/card.rs): trim, split on the
pipe, require exactly 4 parts, strip spaces and dashes from the number, then
validate and normalize each component in source order. -/
def from_string (input : List Char) : Except CardError Card :=
  match splitSep '|' (trimL input) with
  | [p0, p1, p2, p3] =>
    let number := p0.filter (fun c => !(c == ' ' || c == '-'))
    let month0 := trimL p1
    let year0 := trimL p2
    let cvv := trimL p3
    if !(number.all isDigitC) then .error .InvalidNumber
    else if number.length < 13 ∨ 19 < number.length then .error .InvalidNumber
    else if !(month0.all isDigitC) then .error .InvalidMonth
    else
      match parseU8 month0 with
      | none => .error .InvalidMonth
      | some month_num =>
        if month_num < 1 ∨ 12 < month_num then .error .InvalidMonth
        else
          let month := fmt2 month_num
          if !(year0.all isDigitC) then .error .InvalidYear
          else if year0.length = 4 then
            if (cl "20").isPrefixOf year0 then card_finish number month (year0.drop 2) cvv
            else .error .InvalidYear
          else if year0.length ≠ 2 then .error .InvalidYear
          else card_finish number month year0 cvv
  | _ => .error (.InvalidFormat (cl "Expected format: NUMBER|MM|YY|CVV"))

/-- Embedding of `Card::to_string` (src/models/card.rs):
`format!("{}|{}|{}|{}", number, month, year, cvv)`. -/
def Card.to_string (c : Card) : List Char :=
  c.number ++ '|' :: (c.month ++ '|' :: (c.year ++ '|' :: c.cvv))

/-- Helper for the regex model: consume an exact literal at the head of the
text, or fail. -/
def dropLit (lit cs : List Char) : Option (List Char) :=
  if lit.isPrefixOf cs then some (cs.drop lit.length) else none

/-- Attempt, at the head of `cs`, a match of the Stripe id-extraction regex:
a quoted `id` key, optional whitespace around a colon, then a quoted value
that starts with `pre` followed by at least one further non-quote character;
the returned capture is the prefixed value. -/
def matchIdAt (pre cs : List Char) : Option (List Char) :=
  match dropLit (cl "\x22id\x22") cs with
  | none => none
  | some r1 =>
    match r1.dropWhile isWs with
    | ':' :: r3 =>
      (match r3.dropWhile isWs with
      | '"' :: r5 =>
        (match dropLit pre r5 with
        | none => none
        | some r6 =>
          let body := r6.takeWhile (fun c => !(c == '"'))
          if body.isEmpty then none
          else
            match r6.drop body.length with
            | '"' :: _ => some (pre ++ body)
            | _ => none)
      | _ => none)
    | _ => none

/-- Model of `Regex::captures` for the id-extraction pattern used in
src/services/token_manager.rs: the leftmost position admitting a match wins,
and its first capture group is returned. -/
def scanIdPattern (pre : List Char) : List Char → Option (List Char)
  | [] => none
  | c :: rest =>
    match matchIdAt pre (c :: rest) with
    | some r => some r
    | none => scanIdPattern pre rest

/-- Embedding of `extract_stripe_pm_id` (src/services/token_manager.rs).
`parsed` is the outcome of the external `serde_json::from_str` over
`response_text`; when it fails, or the `id` field is missing, non-string or
not `pm_`-prefixed, the function falls back to the regex scan of the raw
text. -/
def extract_stripe_pm_id (parsed : Option Json) (response_text : List Char) :
    Option (List Char) :=
  match parsed with
  | some json =>
    (match (json.index (cl "id")).asStr with
    | some theId =>
      if (cl "pm_").isPrefixOf theId then some theId
      else scanIdPattern (cl "pm_") response_text
    | none => scanIdPattern (cl "pm_") response_text)
  | none => scanIdPattern (cl "pm_") response_text

/-- Embedding of `extract_stripe_source_id` (src/services/token_manager.rs):
same shape as the `pm_` helper with the `src_` prefix. -/
def extract_stripe_source_id (parsed : Option Json) (response_text : List Char) :
    Option (List Char) :=
  match parsed with
  | some json =>
    (match (json.index (cl "id")).asStr with
    | some theId =>
      if (cl "src_").isPrefixOf theId then some theId
      else scanIdPattern (cl "src_") response_text
    | none => scanIdPattern (cl "src_") response_text)
  | none => scanIdPattern (cl "src_") response_text

/-- Embedding of `extract_payment_intent` (src/services/token_manager.rs):
JSON only - the source has no regex fallback for this helper, so the raw
response text is never consulted (hence the unused second parameter, kept to
mirror the Rust signature). Requires a string `id` with prefix `pi_` and a
sibling string `client_secret`. -/
def extract_payment_intent (parsed : Option Json) (response_text : List Char) :
    Option (List Char × List Char) :=
  match parsed with
  | some json =>
    (match (json.index (cl "id")).asStr with
    | some pi_id =>
      (match (json.index (cl "client_secret")).asStr with
      | some client_secret =>
        if (cl "pi_").isPrefixOf pi_id then some (pi_id, client_secret) else none
      | none => none)
    | none => none)
  | none => none

/-- Stage of the external Braintree client-token decode chain (the base64
crate, `String::from_utf8`, serde_json) that failed; the Rust code chains the
three with the question-mark operator. -/
inductive TokenDecodeErr where
  | badBase64
  | badUtf8
  | badJson
deriving DecidableEq, Repr

/-- Embedding of `BraintreeClientToken` (src/services/token_manager.rs). -/
structure BraintreeClientToken where
  authorization_fingerprint : List Char
  merchant_id : List Char
  environment : List Char
deriving DecidableEq, Repr

/-- Embedding of `BraintreeTokenManager::parse_client_token`
(src/services/token_manager.rs). `decoded` is the outcome of the external
decode chain over the encoded token; a failure at any stage propagates, and
on success each field is read with `as_str().unwrap_or("")`. -/
def parse_client_token (decoded : Except TokenDecodeErr Json) :
    Except TokenDecodeErr BraintreeClientToken :=
  match decoded with
  | .error e => .error e
  | .ok value =>
    .ok ⟨((value.index (cl "authorizationFingerprint")).asStr).getD [],
         ((value.index (cl "merchantId")).asStr).getD [],
         ((value.index (cl "environment")).asStr).getD []⟩

/-- Input element of the scraper document model: the three attributes the
field-scraper selectors inspect, each optional as in the scraper crate. -/
structure HtmlInput where
  typeAttr : Option (List Char)
  nameAttr : Option (List Char)
  valueAttr : Option (List Char)
deriving DecidableEq, Repr

/-- Embedding of `FieldScraper::extract_wc_nonce` (src/services/field_scraper.rs).
`doc` is the input-element list of the externally parsed HTML document; the
selector `input[name=nonce_name]` is its filter by name attribute, and only
the first match is inspected, as in the source. -/
def extract_wc_nonce (doc : List HtmlInput) (nonce_name : List Char) :
    Except (List Char) (List Char) :=
  match (doc.filter (fun i => i.nameAttr == some nonce_name)).head? with
  | some input =>
    (match input.valueAttr with
    | some v => .ok v
    | none => .error (cl "Nonce \x27" ++ nonce_name ++ cl "\x27 not found in HTML"))
  | none => .error (cl "Nonce \x27" ++ nonce_name ++ cl "\x27 not found in HTML")

/-- Model of `HashMap::insert`: replace the binding when the key is present,
append it otherwise. -/
def insertKV (m : List (List Char × List Char)) (k v : List Char) :
    List (List Char × List Char) :=
  if m.any (fun p => p.1 == k) then m.map (fun p => if p.1 == k then (k, v) else p)
  else m ++ [(k, v)]

/-- Embedding of `FieldScraper::extract_hidden_fields`
(src/services/field_scraper.rs): collect name and value of every hidden input
in scope into a mapping; the plain (non-Result) return type makes an empty
mapping a successful outcome. `doc` is the element list selected by the
external HTML engine (scoped to the given form when a form id is passed). -/
def extract_hidden_fields (doc : List HtmlInput) : List (List Char × List Char) :=
  (doc.filter (fun i => i.typeAttr == some (cl "hidden"))).foldl
    (fun fields input =>
      match input.nameAttr, input.valueAttr with
      | some n, some v => insertKV fields n v
      | _, _ => fields) []

/-- C3: the code maps BIN `"222100"` to `"Unknown"`, not `"Mastercard"`: the
2221 to 2720 Mastercard range is compared against the parse of the first two
digits (at most 99), so the four-digit 2-series range can never match. This
contradicts the stated rule (first four digits in 2221 to 2720 give
Mastercard), whose range constants the source itself carries under its
Mastercard comment. -/
theorem detect_card_brand_two_series_eval :
    detect_card_brand (cl "222100") = cl "Unknown" ∧
    detect_card_brand (cl "5111") = cl "Mastercard" := by
  constructor <;> decide

/-- C4: `should_notify` is true exactly on the four statuses Charged, CcnLive,
ThreeDsRequired and InsufficientFunds, checked exhaustively over all seven
`PaymentStatus` constructors. -/
theorem should_notify_iff (s : PaymentStatus) :
    should_notify s = true ↔
      (s = PaymentStatus.Charged ∨ s = PaymentStatus.CcnLive ∨
       s = PaymentStatus.ThreeDsRequired ∨ s = PaymentStatus.InsufficientFunds) := by
  cases s <;> decide

/-- C1: rule order in the Stripe cascade is first-match-wins with the CVC rule
outranking the insufficient-funds rule: any parsed error payload whose message
matches an insufficient-funds phrase while its code field is `incorrect_cvc`
classifies as CcnLive, not InsufficientFunds. -/
theorem stripe_rule_order_cvc_first
    (j e : Json) (msg codeRaw : List Char)
    (hj : j.get (cl "error") = some e)
    (hm : (e.index (cl "message")).asStr = some msg)
    (hc : (e.index (cl "code")).asStr = some codeRaw)
    (hcvc : lowerL codeRaw = cl "incorrect_cvc")
    (hfunds : isSub (cl "insufficient funds") (lowerL msg) = true) :
    (parse_stripe_error (some j)).status = PaymentStatus.CcnLive := by
  simp only [parse_stripe_error, hj, hm, hc, hcvc, Option.getD_some]
  unfold categorize_stripe_error
  simp [PaymentResponse.ccn_live, PaymentResponse.new]

/-- Witness for C1: the payload whose message reads `Insufficient funds` and
whose code is `incorrect_cvc` classifies as CcnLive. -/
theorem stripe_rule_order_cvc_first_witness :
    (parse_stripe_error (some (Json.obj [(cl "error",
      Json.obj [(cl "message", Json.str (cl "Insufficient funds")),
                (cl "code", Json.str (cl "incorrect_cvc"))])]))).status =
      PaymentStatus.CcnLive :=
  stripe_rule_order_cvc_first
    (Json.obj [(cl "error",
      Json.obj [(cl "message", Json.str (cl "Insufficient funds")),
                (cl "code", Json.str (cl "incorrect_cvc"))])])
    (Json.obj [(cl "message", Json.str (cl "Insufficient funds")),
               (cl "code", Json.str (cl "incorrect_cvc"))])
    (cl "Insufficient funds") (cl "incorrect_cvc")
    rfl rfl rfl (by decide) (by decide)

/-- C2: the classifiers never fail outward. Each embedded classifier is a
total Lean function (totality by construction, mirroring the total Rust
signatures), and an unparseable payload (serde_json outcome `none`), a JSON
payload without the expected field, or an unrecognized payload each degrade
to status Error carrying the fixed per-classifier diagnostic message. -/
theorem classifiers_never_fail_outward :
    (parse_stripe_error none = PaymentResponse.error (cl "Failed to parse Stripe error response")) ∧
    (∀ j : Json, j.get (cl "error") = none →
      parse_stripe_error (some j) =
        PaymentResponse.error (cl "Failed to parse Stripe error response")) ∧
    (∀ (text : List Char) (scraped : Option (List Char)),
      isSub (cl "order received") (lowerL text) = false →
      isSub (cl "thank you") (lowerL text) = false →
      isSub (cl "payment failed") (lowerL text) = false →
      isSub (cl "error") (lowerL text) = false →
      parse_woocommerce_response none text scraped =
        PaymentResponse.error (cl "Unable to parse WooCommerce response")) ∧
    (∀ text : List Char,
      isSub (cl "payment method successfully added") (lowerL text) = false →
      isSub (cl "successfully added") (lowerL text) = false →
      extract_between text (cl "Reason: ") (cl "\t\t</li>") = none →
      parse_braintree_response text =
        PaymentResponse.error (cl "Unable to parse Braintree response")) := by
  refine ⟨rfl, ?_, ?_, ?_⟩
  · intro j hj
    simp only [parse_stripe_error, hj]
  · intro text scraped h1 h2 h3 h4
    simp [parse_woocommerce_response, woocommerce_html_branch, h1, h2, h3, h4]
  · intro text h1 h2 h3
    simp [parse_braintree_response, h1, h2, h3]

/-- Witness for C2: an empty JSON object, and the non-JSON text `xyz` with no
recognized markers, each degrade to the fixed Error diagnostics. -/
theorem classifiers_never_fail_outward_witness :
    parse_stripe_error (some (Json.obj [])) =
      PaymentResponse.error (cl "Failed to parse Stripe error response") ∧
    parse_woocommerce_response none (cl "xyz") none =
      PaymentResponse.error (cl "Unable to parse WooCommerce response") ∧
    parse_braintree_response (cl "xyz") =
      PaymentResponse.error (cl "Unable to parse Braintree response") :=
  ⟨classifiers_never_fail_outward.2.1 (Json.obj []) rfl,
   classifiers_never_fail_outward.2.2.1 (cl "xyz") none (by decide) (by decide) (by decide) (by decide),
   classifiers_never_fail_outward.2.2.2 (cl "xyz") (by decide) (by decide) (by decide)⟩

/-- Helper: digit extraction distributes over concatenation. -/
theorem digitsOf_append (a b : List Char) : digitsOf (a ++ b) = digitsOf a ++ digitsOf b := by
  simp [digitsOf]

/-- Helper: the ASCII character of a digit value below 10 is a digit with the
expected code point. -/
theorem digitChar_spec (d : Nat) (h : d < 10) :
    isDigitC (Char.ofNat (48 + d)) = true ∧ (Char.ofNat (48 + d)).toNat = 48 + d := by
  interval_cases d <;> exact ⟨by decide, by decide⟩

/-- C5: appending the check digit computed by `calculate_luhn_digit` yields a
Luhn-valid number. Stated for every string on which the check digit is
defined, which covers in particular every nonempty digit string `p`: if
`calculate_luhn_digit p = some d` then `validate_luhn (p ++ [digit d])` is
true. -/
theorem luhn_append_check_digit (s : List Char) (d : Nat)
    (h : calculate_luhn_digit s = some d) :
    validate_luhn (s ++ [Char.ofNat (48 + d)]) = true := by
  unfold calculate_luhn_digit at h
  by_cases he : (digitsOf s).isEmpty
  · simp [he] at h
  · simp only [he, if_false, Bool.false_eq_true] at h
    injection h with h
    have hd10 : d < 10 := by omega
    obtain ⟨hdig, hval⟩ := digitChar_spec d hd10
    unfold validate_luhn
    rw [digitsOf_append]
    have hsingle : digitsOf [Char.ofNat (48 + d)] = [d] := by
      simp [digitsOf, hdig, hval]
    rw [hsingle]
    have hne : (digitsOf s ++ [d]).isEmpty = false := by
      simp
    simp only [hne, Bool.false_eq_true, if_false]
    rw [List.reverse_append]
    simp only [List.reverse_cons, List.reverse_nil, List.nil_append, List.singleton_append]
    simp only [luhnSum, Bool.not_false, if_neg (by simp : ¬(false = true))]
    have : (d + luhnSum (digitsOf s).reverse true) % 10 = 0 := by omega
    simp [this]

/-- Witness for C5: on the 15-digit stem of a valid Visa test number the check
digit is 6 and appending it passes `validate_luhn`. -/
theorem luhn_append_check_digit_witness :
    validate_luhn (cl "453201511283036" ++ [Char.ofNat (48 + 6)]) = true :=
  luhn_append_check_digit (cl "453201511283036") 6 (by decide)

/-- C10: `validate_luhn` sees only the ASCII-digit subsequence of its input
(inserting spaces, dashes or any non-digit characters never changes the
verdict), and a string with no digits at all, the empty string included, is
always rejected. -/
theorem validate_luhn_digit_subsequence (s : List Char) :
    validate_luhn s = validate_luhn (s.filter isDigitC) ∧
    (s.filter isDigitC = [] → validate_luhn s = false) := by
  constructor
  · have hdig : digitsOf (s.filter isDigitC) = digitsOf s := by
      unfold digitsOf
      rw [List.filter_filter]
      congr 1
      apply List.filter_congr
      intro c _
      simp
    unfold validate_luhn
    rw [hdig]
  · intro h
    have hnil : digitsOf s = [] := by
      unfold digitsOf
      rw [h]
      rfl
    simp [validate_luhn, hnil]

/-- Witness for C10: a card number interleaved with spaces and a dash
validates exactly like its digit-only subsequence, and a digit-free string is
rejected. -/
theorem validate_luhn_digit_subsequence_witness :
    validate_luhn (cl "4532 0151-1283 0366") = validate_luhn (cl "4532015112830366") ∧
    validate_luhn (cl "a-b c") = false := by
  constructor
  · have h := (validate_luhn_digit_subsequence (cl "4532 0151-1283 0366")).1
    rw [h]
    rfl
  · exact (validate_luhn_digit_subsequence (cl "a-b c")).2 (by decide)

/-- Helper: `dropWhile` keeps a list whose elements all fail the predicate. -/
theorem dropWhile_eq_self_of_forall (p : Char → Bool) (l : List Char)
    (h : ∀ x ∈ l, p x = false) : l.dropWhile p = l := by
  cases l with
  | nil => rfl
  | cons c t => simp [List.dropWhile_cons, h c (List.mem_cons_self c t)]

/-- Helper: trimming a list without whitespace is the identity. -/
theorem trimL_eq_self (l : List Char) (h : ∀ x ∈ l, isWs x = false) : trimL l = l := by
  unfold trimL
  rw [dropWhile_eq_self_of_forall _ _ h]
  rw [dropWhile_eq_self_of_forall _ _ (fun x hx => h x (List.mem_reverse.mp hx))]
  exact List.reverse_reverse l

/-- Helper: splitting a list not containing the separator yields one piece. -/
theorem splitSep_of_not_mem (sep : Char) (l : List Char) (h : sep ∉ l) :
    splitSep sep l = [l] := by
  induction l with
  | nil => rfl
  | cons c t ih =>
    have hc : ¬(c = sep) := fun e => h (e ▸ List.mem_cons_self c t)
    have ht : sep ∉ t := fun m => h (List.mem_cons_of_mem c m)
    simp [splitSep, hc, ih ht]

/-- Helper: splitting peels off a separator-free piece before a separator. -/
theorem splitSep_append (sep : Char) (a rest : List Char) (h : sep ∉ a) :
    splitSep sep (a ++ sep :: rest) = a :: splitSep sep rest := by
  induction a with
  | nil => simp [splitSep]
  | cons c t ih =>
    have hc : ¬(c = sep) := fun e => h (e ▸ List.mem_cons_self c t)
    have ht : sep ∉ t := fun m => h (List.mem_cons_of_mem c m)
    simp [splitSep, hc, ih ht]

/-- Helper: a digit character is not whitespace. -/
theorem digit_not_ws (c : Char) (h : isDigitC c = true) : isWs c = false := by
  simp only [isDigitC, Bool.and_eq_true, decide_eq_true_eq] at h
  simp only [isWs, Bool.or_eq_false_iff, beq_eq_false_iff_ne, ne_eq, Bool.and_eq_false_iff]
  constructor
  · intro e
    omega
  · right
    simp only [decide_eq_false_iff_not]
    omega

/-- Helper: a digit character is not the pipe separator. -/
theorem digit_ne_pipe (c : Char) (h : isDigitC c = true) : c ≠ '|' := by
  intro e
  rw [e] at h
  exact absurd h (by decide)

/-- Helper: a digit character survives the space-and-dash strip. -/
theorem digit_keep_filter (c : Char) (h : isDigitC c = true) :
    (!(c == ' ' || c == '-')) = true := by
  by_cases e1 : c = ' '
  · rw [e1] at h
    exact absurd h (by decide)
  · by_cases e2 : c = '-'
    · rw [e2] at h
      exact absurd h (by decide)
    · simp [e1, e2]

/-- Helper: formatting a month between 1 and 12 yields two digit characters
that parse back to the same value. -/
theorem month_fmt_spec (m : Nat) (h1 : 1 ≤ m) (h2 : m ≤ 12) :
    (fmt2 m).all isDigitC = true ∧ parseU8 (fmt2 m) = some m ∧ (fmt2 m).length = 2 := by
  interval_cases m <;> exact ⟨rfl, rfl, rfl⟩

/-- Helper: inversion of a successful parse. Every card produced by
`from_string` has an all-digit number of length 13 to 19, a month that is the
two-digit format of a value between 1 and 12, a two-digit all-digit year, and
an all-digit CVV of length 3 to 4. -/
theorem from_string_ok_inv (input : List Char) (c : Card) (h : from_string input = .ok c) :
    c.number.all isDigitC = true ∧ 13 ≤ c.number.length ∧ c.number.length ≤ 19 ∧
    (∃ m, 1 ≤ m ∧ m ≤ 12 ∧ c.month = fmt2 m) ∧
    c.year.all isDigitC = true ∧ c.year.length = 2 ∧
    c.cvv.all isDigitC = true ∧ 3 ≤ c.cvv.length ∧ c.cvv.length ≤ 4 := by
  unfold from_string at h
  split at h
  case _ p0 p1 p2 p3 =>
    simp only at h
    split at h
    · exact absurd h (by simp)
    · rename_i hnum
      split at h
      · exact absurd h (by simp)
      · rename_i hlen
        split at h
        · exact absurd h (by simp)
        · rename_i hmon
          split at h
          · exact absurd h (by simp)
          · rename_i month_num hparse
            split at h
            · exact absurd h (by simp)
            · rename_i hrange
              split at h
              · exact absurd h (by simp)
              · rename_i hyd
                split at h
                · rename_i hy4
                  split at h
                  · rename_i hpre
                    unfold card_finish at h
                    split at h
                    · exact absurd h (by simp)
                    · rename_i hcd
                      split at h
                      · exact absurd h (by simp)
                      · rename_i hcl
                        injection h with h
                        subst h
                        simp at hnum hyd hcd
                        push_neg at hlen hrange hcl
                        refine ⟨?_, hlen.1, hlen.2,
                          ⟨month_num, by omega, by omega, rfl⟩,
                          ?_, ?_, by simpa using hcd, hcl.1, hcl.2⟩
                        · refine List.all_eq_true.mpr fun x hx => ?_
                          rcases List.mem_filter.mp hx with ⟨hxm, hxf⟩
                          simp at hxf
                          exact hnum x hxm hxf.1 hxf.2
                        · simp only [List.all_eq_true]
                          intro x hx
                          exact hyd x (List.mem_of_mem_drop hx)
                        · simp [List.length_drop, hy4]
                  · exact absurd h (by simp)
                · rename_i hy4
                  split at h
                  · exact absurd h (by simp)
                  · rename_i hy2
                    unfold card_finish at h
                    split at h
                    · exact absurd h (by simp)
                    · rename_i hcd
                      split at h
                      · exact absurd h (by simp)
                      · rename_i hcl
                        injection h with h
                        subst h
                        simp at hnum hyd hcd
                        push_neg at hlen hrange hcl hy2
                        refine ⟨?_, hlen.1, hlen.2,
                          ⟨month_num, by omega, by omega, rfl⟩,
                          by simpa using hyd, hy2, by simpa using hcd, hcl.1, hcl.2⟩
                        refine List.all_eq_true.mpr fun x hx => ?_
                        rcases List.mem_filter.mp hx with ⟨hxm, hxf⟩
                        simp at hxf
                        exact hnum x hxm hxf.1 hxf.2
  case _ => exact absurd h (by simp)

/-- C6: every successfully parsed card has month and year normalized to two
digits, `to_string` emits exactly that normalized form, and re-parsing the
serialized form returns the identical card, so a second round-trip changes
nothing. -/
theorem card_roundtrip (input : List Char) (c : Card) (h : from_string input = .ok c) :
    c.month.length = 2 ∧ c.year.length = 2 ∧
    c.month.all isDigitC = true ∧ c.year.all isDigitC = true ∧
    from_string (Card.to_string c) = .ok c := by
  obtain ⟨hnum, hl1, hl2, ⟨m, hm1, hm2, hmonth⟩, hyear, hylen, hcvv, hc1, hc2⟩ :=
    from_string_ok_inv input c h
  obtain ⟨hmall, hmparse, hmlen⟩ := month_fmt_spec m hm1 hm2
  have hNd := List.all_eq_true.mp hnum
  have hMall : c.month.all isDigitC = true := by rw [hmonth]; exact hmall
  have hMd := List.all_eq_true.mp hMall
  have hYd := List.all_eq_true.mp hyear
  have hVd := List.all_eq_true.mp hcvv
  refine ⟨by rw [hmonth]; exact hmlen, hylen, hMall, hyear, ?_⟩
  have hws : ∀ x ∈ Card.to_string c, isWs x = false := by
    intro x hx
    simp only [Card.to_string, List.mem_append, List.mem_cons] at hx
    rcases hx with hN | rfl | hM | rfl | hY | rfl | hV
    · exact digit_not_ws x (hNd x hN)
    · decide
    · exact digit_not_ws x (hMd x hM)
    · decide
    · exact digit_not_ws x (hYd x hY)
    · decide
    · exact digit_not_ws x (hVd x hV)
  have hNp : '|' ∉ c.number := fun hx => digit_ne_pipe _ (hNd _ hx) rfl
  have hMp : '|' ∉ c.month := fun hx => digit_ne_pipe _ (hMd _ hx) rfl
  have hYp : '|' ∉ c.year := fun hx => digit_ne_pipe _ (hYd _ hx) rfl
  have hVp : '|' ∉ c.cvv := fun hx => digit_ne_pipe _ (hVd _ hx) rfl
  have htrim := trimL_eq_self _ hws
  have hsplit : splitSep '|' (Card.to_string c) = [c.number, c.month, c.year, c.cvv] := by
    show splitSep '|' (c.number ++ '|' :: (c.month ++ '|' :: (c.year ++ '|' :: c.cvv))) = _
    rw [splitSep_append _ _ _ hNp, splitSep_append _ _ _ hMp, splitSep_append _ _ _ hYp,
        splitSep_of_not_mem _ _ hVp]
  have hfil : c.number.filter (fun ch => !(ch == ' ' || ch == '-')) = c.number :=
    List.filter_eq_self.mpr fun a ha => digit_keep_filter a (hNd a ha)
  have htM : trimL c.month = c.month := trimL_eq_self _ fun x hx => digit_not_ws x (hMd x hx)
  have htY : trimL c.year = c.year := trimL_eq_self _ fun x hx => digit_not_ws x (hYd x hx)
  have htV : trimL c.cvv = c.cvv := trimL_eq_self _ fun x hx => digit_not_ws x (hVd x hx)
  have d1 : ¬(c.number.length < 13 ∨ 19 < c.number.length) := by omega
  have d2 : ¬(m < 1 ∨ 12 < m) := by omega
  have d3 : ¬(c.year.length = 4) := by omega
  have d4 : ¬(c.year.length ≠ 2) := by omega
  have d5 : ¬(c.cvv.length < 3 ∨ 4 < c.cvv.length) := by omega
  unfold from_string
  rw [htrim, hsplit]
  have hmp2 : parseU8 c.month = some m := by rw [hmonth]; exact hmparse
  simp only [hfil, htM, htY, htV, hnum, hyear, hcvv, hMall, card_finish, hmp2, d1, d2, d3,
    d4, d5]
  simp only [Bool.not_true, Bool.false_eq_true, if_false, ite_false, Option.some.injEq]
  rw [← hmonth]

/-- Witness for C6: the input with a one-digit month and a four-digit year
parses to the normalized card, which round-trips to itself. -/
theorem card_roundtrip_witness :
    (cl "06").length = 2 ∧ (cl "25").length = 2 ∧
    (cl "06").all isDigitC = true ∧ (cl "25").all isDigitC = true ∧
    from_string (Card.to_string ⟨cl "4532123456789012", cl "06", cl "25", cl "123"⟩) =
      .ok ⟨cl "4532123456789012", cl "06", cl "25", cl "123"⟩ :=
  card_roundtrip (cl "4532123456789012|6|2025|123")
    ⟨cl "4532123456789012", cl "06", cl "25", cl "123"⟩ rfl

/-- C7 (amended): the `pm_` and `src_` helpers fall back to the regex scan of
the raw text whenever JSON parsing fails or the `id` field is absent,
non-string or wrongly prefixed; payment-intent extraction has no regex
fallback and returns none whenever JSON parsing fails, regardless of the raw
text content. -/
theorem stripe_id_extraction_fallbacks :
    (∀ t, extract_stripe_pm_id none t = scanIdPattern (cl "pm_") t) ∧
    (∀ j t, (j.index (cl "id")).asStr = none →
        extract_stripe_pm_id (some j) t = scanIdPattern (cl "pm_") t) ∧
    (∀ j t s, (j.index (cl "id")).asStr = some s → (cl "pm_").isPrefixOf s = false →
        extract_stripe_pm_id (some j) t = scanIdPattern (cl "pm_") t) ∧
    (∀ t, extract_stripe_source_id none t = scanIdPattern (cl "src_") t) ∧
    (∀ j t, (j.index (cl "id")).asStr = none →
        extract_stripe_source_id (some j) t = scanIdPattern (cl "src_") t) ∧
    (∀ j t s, (j.index (cl "id")).asStr = some s → (cl "src_").isPrefixOf s = false →
        extract_stripe_source_id (some j) t = scanIdPattern (cl "src_") t) ∧
    (∀ t, extract_payment_intent none t = none) := by
  refine ⟨fun t => rfl, ?_, ?_, fun t => rfl, ?_, ?_, fun t => rfl⟩
  · intro j t hid
    simp [extract_stripe_pm_id, hid]
  · intro j t s hid hpre
    simp [extract_stripe_pm_id, hid, hpre]
  · intro j t hid
    simp [extract_stripe_source_id, hid]
  · intro j t s hid hpre
    simp [extract_stripe_source_id, hid, hpre]

/-- Witness for C7: a payload whose id is `tok_visa` (wrong prefix) routes the
`pm_` helper to the regex scan of the raw text, and the payment-intent helper
returns none on unparseable input. -/
theorem stripe_id_extraction_fallbacks_witness :
    extract_stripe_pm_id (some (Json.obj [(cl "id", Json.str (cl "tok_visa"))]))
      (cl "\x22id\x22 : \x22pm_1X\x22") =
      scanIdPattern (cl "pm_") (cl "\x22id\x22 : \x22pm_1X\x22") ∧
    extract_payment_intent none (cl "plain text") = none :=
  ⟨stripe_id_extraction_fallbacks.2.2.1 (Json.obj [(cl "id", Json.str (cl "tok_visa"))])
      (cl "\x22id\x22 : \x22pm_1X\x22") (cl "tok_visa") rfl (by decide),
   stripe_id_extraction_fallbacks.2.2.2.2.2.2 (cl "plain text")⟩

/-- Counterexample for C7: on non-JSON text that does contain a `pi_` id and a
client secret, payment-intent extraction returns none - there is no regex
fallback for the `pi_` helper - while the `pm_` helper on non-JSON text of the
same shape does succeed through its regex fallback. -/
theorem payment_intent_no_fallback_cex :
    extract_payment_intent none
      (cl "not json \x22id\x22: \x22pi_3OaQ\x22, \x22client_secret\x22: \x22pi_3OaQ_secret_X\x22") =
      none ∧
    extract_stripe_pm_id none (cl "not json \x22id\x22: \x22pm_1OaQ\x22") =
      some (cl "pm_1OaQ") :=
  ⟨rfl, rfl⟩

/-- C8: Braintree client-token parsing fails exactly when a stage of the
external decode chain (base64, UTF-8, JSON) fails, and never on a missing
field: every decoded JSON value yields an Ok token whose three fields default
to the empty string when the corresponding JSON field is absent or not a
string, and carry its content otherwise. -/
theorem braintree_client_token_total :
    (∀ e, parse_client_token (.error e) = .error e) ∧
    (∀ value : Json, ∃ t, parse_client_token (.ok value) = .ok t ∧
      ((value.index (cl "authorizationFingerprint")).asStr = none →
         t.authorization_fingerprint = []) ∧
      ((value.index (cl "merchantId")).asStr = none → t.merchant_id = []) ∧
      ((value.index (cl "environment")).asStr = none → t.environment = []) ∧
      (∀ s, (value.index (cl "authorizationFingerprint")).asStr = some s →
         t.authorization_fingerprint = s) ∧
      (∀ s, (value.index (cl "merchantId")).asStr = some s → t.merchant_id = s) ∧
      (∀ s, (value.index (cl "environment")).asStr = some s → t.environment = s)) := by
  refine ⟨fun e => rfl, fun value => ⟨_, rfl, ?_, ?_, ?_, ?_, ?_, ?_⟩⟩
  · intro h
    simp [h]
  · intro h
    simp [h]
  · intro h
    simp [h]
  · intro s h
    simp [h]
  · intro s h
    simp [h]
  · intro s h
    simp [h]

/-- Witness for C8: a token JSON carrying only `merchantId` parses
successfully, with the two absent fields defaulted to empty. -/
theorem braintree_client_token_total_witness :
    parse_client_token (.ok (Json.obj [(cl "merchantId", Json.str (cl "m123"))])) =
      .ok ⟨[], cl "m123", []⟩ := by
  obtain ⟨t, ht, h1, h2, h3, h4, h5, h6⟩ :=
    braintree_client_token_total.2 (Json.obj [(cl "merchantId", Json.str (cl "m123"))])
  rw [ht]
  have e1 := h1 rfl
  have e2 := h5 (cl "m123") rfl
  have e3 := h3 rfl
  cases t
  simp only at e1 e2 e3
  rw [e1, e2, e3]

/-- C9 (amended): on a document with no hidden input fields,
`extract_hidden_fields` returns the empty mapping as a plain (non-error)
value; and when additionally no input of any type carries the requested nonce
name - as on a document with no inputs at all - `extract_wc_nonce` fails with
its not-found error. The extra condition is forced by the counterexample: a
non-hidden input bearing the nonce name makes `extract_wc_nonce` succeed. -/
theorem hidden_fields_empty_nonce_notfound (doc : List HtmlInput) (nonce_name : List Char)
    (hhid : ∀ i ∈ doc, i.typeAttr ≠ some (cl "hidden")) :
    extract_hidden_fields doc = [] ∧
    ((∀ i ∈ doc, i.nameAttr ≠ some nonce_name) →
      extract_wc_nonce doc nonce_name =
        .error (cl "Nonce \x27" ++ nonce_name ++ cl "\x27 not found in HTML")) := by
  constructor
  · unfold extract_hidden_fields
    have hf : doc.filter (fun i => i.typeAttr == some (cl "hidden")) = [] := by
      refine List.filter_eq_nil_iff.mpr fun i hi => ?_
      simp [hhid i hi]
    rw [hf]
    rfl
  · intro hname
    unfold extract_wc_nonce
    have hf : doc.filter (fun i => i.nameAttr == some nonce_name) = [] := by
      refine List.filter_eq_nil_iff.mpr fun i hi => ?_
      simp [hname i hi]
    rw [hf]
    rfl

/-- Witness for C9: on the empty document the hidden-field scan returns the
empty mapping while the nonce lookup fails with its not-found error. -/
theorem hidden_fields_empty_nonce_notfound_witness :
    extract_hidden_fields ([] : List HtmlInput) = [] ∧
    extract_wc_nonce ([] : List HtmlInput) (cl "woocommerce-process-checkout-nonce") =
      .error (cl "Nonce \x27" ++ cl "woocommerce-process-checkout-nonce" ++
        cl "\x27 not found in HTML") :=
  have h := hidden_fields_empty_nonce_notfound [] (cl "woocommerce-process-checkout-nonce")
    (by simp)
  ⟨h.1, h.2 (by simp)⟩

/-- Counterexample for C9: a document whose only input is a non-hidden text
input carrying the nonce name has no hidden input fields, yet
`extract_wc_nonce` succeeds on it, so the claim as stated fails. -/
theorem hidden_fields_vs_nonce_cex :
    extract_hidden_fields
      [⟨some (cl "text"), some (cl "woocommerce-process-checkout-nonce"), some (cl "abc123")⟩] =
      [] ∧
    extract_wc_nonce
      [⟨some (cl "text"), some (cl "woocommerce-process-checkout-nonce"), some (cl "abc123")⟩]
      (cl "woocommerce-process-checkout-nonce") = .ok (cl "abc123") :=
  ⟨rfl, rfl⟩
